import Mathlib

/-
Shallow embedding of `src/process_icon.py`, an icon-asset generator.

The script decodes one source image, then for each entry of a fixed
ordered table `icon_sizes` it computes an integer pixel size, resizes the
decoded raster with Lanczos resampling, saves the result as PNG into the
output directory, and prints one progress line.  The `__main__` block
resolves the input image and output directory relative to the script's
own location, creates the output directory (with parents) and then calls
`create_icon_sizes`.

Modelling decisions, each justified against the source:
* Pixel data is abstract: the claims only concern dimensions, filenames,
  ordering, error behaviour and the frame of effects, never the numeric
  content of the Lanczos resample.  A raster remembers its width, height
  and a `Pixels` term recording how it was produced; `Image.resize` in
  PIL returns a fresh image and never mutates its receiver, which the
  pure model reflects by building a new `Raster` value.
* Python's `base_size` values are `int`s except the float `83.5`.  Every
  table value (20, 29, 40, 60, 76, 83.5, 1024) and every product
  appearing in the run (for example 83.5 * 2 = 167.0) is exactly
  representable in binary floating point, so modelling `base_size` as a
  rational number is exact: no rounding ever happens in the float
  arithmetic of the source.  Python's `int()` on a float truncates
  toward zero, modelled by `pyInt`.
* The filesystem is a `World`: an association list of files (lookup
  takes the most recent write, which models overwriting), the set of
  existing directories, and the set of paths on which a write fails
  (permission denied / disk full).  `PIL.Image.save` fails when the
  directory of the target path does not exist or the path is not
  writable; `Image.open` fails when the file is absent or not decodable.
* A run additionally produces an ordered trace of library events
  (decode, resize, save, print), so that claims about ordering, about
  the number of decodes, and about which raster each resize reads can be
  stated directly.
-/

namespace ProcessIcon

/-- Abstract pixel content of an in-memory raster: either the decoded
bytes of a source file, or the result of a Lanczos resample of another
raster's pixels to a given width and height. -/
inductive Pixels where
  | srcData : Nat → Pixels
  | lanczos : Pixels → Nat → Nat → Pixels
deriving DecidableEq

/-- An in-memory decoded raster image: dimensions plus abstract pixel
content. -/
structure Raster where
  width : Nat
  height : Nat
  pix : Pixels
deriving DecidableEq

/-- A file on disk: either an encoded image with the given dimensions and
pixel content (decodable), or raw undecodable bytes. -/
inductive FileData where
  | image : Nat → Nat → Pixels → FileData
  | raw : Nat → FileData
deriving DecidableEq

/-- The filesystem state: files (most recent write first), existing
directories, and paths on which a write fails. -/
structure World where
  files : List (String × FileData)
  dirs : List String
  unwritable : List String
deriving DecidableEq

/-- Look a path up among the files; the most recent write shadows older
ones, modelling overwrite. -/
def lookupFile : List (String × FileData) → String → Option FileData
  | [], _ => none
  | (q, d) :: rest, p => if p = q then some d else lookupFile rest p

/-- Python's `os.path.join(output_dir, filename)` for a relative
`filename` without separators. -/
def outPath (output_dir filename : String) : String :=
  output_dir ++ "/" ++ filename

/-- Python's `int()` applied to a (here exactly represented) float:
truncation toward zero. -/
def pyInt (q : ℚ) : ℤ :=
  if 0 ≤ q then ⌊q⌋ else ⌈q⌉

/-- One entry of the `icon_sizes` table: `((base_size, scale), filename)`,
matching the Python dict items `(base_size, scale): filename`. -/
abbrev Entry : Type := (ℚ × ℕ) × String

/-- The `icon_sizes` dict of `create_icon_sizes`, as the ordered list of
its items.  Python dicts preserve insertion order, and the keys are
pairwise distinct (proved below), so no entry is merged away. -/
def icon_sizes : List Entry :=
  [ ((20, 2), "AppIcon-20@2x.png"),
    ((20, 3), "AppIcon-20@3x.png"),
    ((29, 2), "AppIcon-29@2x.png"),
    ((29, 3), "AppIcon-29@3x.png"),
    ((40, 2), "AppIcon-40@2x.png"),
    ((40, 3), "AppIcon-40@3x.png"),
    ((60, 2), "AppIcon-60@2x.png"),
    ((60, 3), "AppIcon-60@3x.png"),
    ((76, 1), "AppIcon-76.png"),
    ((76, 2), "AppIcon-76@2x.png"),
    ((83.5, 2), "AppIcon-83.5@2x.png"),
    ((1024, 1), "AppIcon-1024.png") ]

/-- `size = int(base_size * scale)` for a table entry. -/
def entrySize (e : Entry) : ℕ :=
  (pyInt (e.1.1 * (e.1.2 : ℚ))).toNat

/-- `img.resize((w, h), Image.Resampling.LANCZOS)`: a fresh raster of the
requested dimensions whose pixels are the Lanczos resample of the
source's pixels; the source raster is not modified. -/
def pyResize (img : Raster) (w h : Nat) : Raster :=
  ⟨w, h, Pixels.lanczos img.pix w h⟩

/-- `Image.open(path)`: decode the file at `path`, failing if it is
absent or not a decodable image. -/
def decodeImage (w : World) (p : String) : Option Raster :=
  match lookupFile w.files p with
  | some (FileData.image wd ht px) => some ⟨wd, ht, px⟩
  | _ => none

/-- `resized.save(output_path, 'PNG')`: succeeds iff the output directory
exists and the path is writable, recording the PNG encoding of the
raster; an existing file at the path is overwritten. -/
def trySave (w : World) (output_dir filename : String) (r : Raster) : Option World :=
  if output_dir ∈ w.dirs ∧ outPath output_dir filename ∉ w.unwritable then
    some { w with files := (outPath output_dir filename, FileData.image r.width r.height r.pix) :: w.files }
  else
    none

/-- The progress line `Created <filename> (<size>x<size>)`. -/
def createdLine (filename : String) (size : ℕ) : String :=
  "Created " ++ filename ++ " (" ++ toString size ++ "x" ++ toString size ++ ")"

/-- One observable event of a run: a decode, a resize (recording the
source raster it read and the raster it produced), a file save, or a
printed line. -/
inductive Event where
  | decoded : String → Raster → Event
  | resizedTo : Raster → Nat → Nat → Raster → Event
  | saved : String → Raster → Event
  | printed : String → Event
deriving DecidableEq

/-- The two fatal error classes of the script: a decode failure before
the loop, or an I/O failure during a save. -/
inductive PyError where
  | decodeError : PyError
  | ioError : PyError
deriving DecidableEq

/-- The result of a run: the final filesystem, the ordered event trace,
and the error that aborted the run, if any. -/
structure Outcome where
  world : World
  trace : List Event
  error : Option PyError
deriving DecidableEq

/-- The `for (base_size, scale), filename in icon_sizes.items():` loop of
`create_icon_sizes`: resize, save, print, in that order for each entry;
an exception from `save` aborts the whole loop at once (the resize that
preceded the failing save has still happened). -/
def runEntries (img : Raster) (output_dir : String) : List Entry → World → Outcome
  | [], w => ⟨w, [], none⟩
  | e :: rest, w =>
    let size := entrySize e
    let resized := pyResize img size size
    match trySave w output_dir e.2 resized with
    | none => ⟨w, [Event.resizedTo img size size resized], some PyError.ioError⟩
    | some w' =>
      let o := runEntries img output_dir rest w'
      ⟨o.world,
        Event.resizedTo img size size resized ::
          Event.saved (outPath output_dir e.2) resized ::
            Event.printed (createdLine e.2 size) :: o.trace,
        o.error⟩

/-- `create_icon_sizes(input_path, output_dir)`: decode the source image
once, then process every table entry in order; a decode failure aborts
before the loop with nothing written and nothing printed. -/
def create_icon_sizes (input_path output_dir : String) (w : World) : Outcome :=
  match decodeImage w input_path with
  | none => ⟨w, [], some PyError.decodeError⟩
  | some img =>
    ⟨(runEntries img output_dir icon_sizes w).world,
      Event.decoded input_path img :: (runEntries img output_dir icon_sizes w).trace,
      (runEntries img output_dir icon_sizes w).error⟩

/-- The lines printed during a run, in order. -/
def stdoutOf (t : List Event) : List String :=
  t.filterMap fun e =>
    match e with
    | Event.printed s => some s
    | _ => none

/-- The saves performed during a run, in order: target path with the
width and height of the written image. -/
def savesOf (t : List Event) : List (String × ℕ × ℕ) :=
  t.filterMap fun e =>
    match e with
    | Event.saved p r => some (p, r.width, r.height)
    | _ => none

/-- The decodes performed during a run, in order. -/
def decodesOf (t : List Event) : List (String × Raster) :=
  t.filterMap fun e =>
    match e with
    | Event.decoded p r => some (p, r)
    | _ => none

/-- Every ancestor prefix of a `/`-separated path, the path itself
included. -/
def ancestors (dir : String) : List String :=
  let parts := dir.splitOn "/"
  (List.range parts.length).map fun i => String.intercalate "/" (parts.take (i + 1))

/-- `os.makedirs(dir, exist_ok=True)`: the directory and all its missing
parents exist afterwards; nothing else changes. -/
def makedirs (w : World) (dir : String) : World :=
  { w with dirs := dir :: ancestors dir ++ w.dirs }

/-- The `__main__` block: resolve `AppIcon.png` and
`Assets.xcassets/AppIcon.appiconset` relative to the script's directory,
ensure the output directory exists, then run `create_icon_sizes`. -/
def mainRun (script_dir : String) (w : World) : Outcome :=
  create_icon_sizes (script_dir ++ "/AppIcon.png")
    (script_dir ++ "/Assets.xcassets/AppIcon.appiconset")
    (makedirs w (script_dir ++ "/Assets.xcassets/AppIcon.appiconset"))

/-- The file that a successful save of entry `e` records on disk. -/
def entryFile (img : Raster) (e : Entry) : FileData :=
  FileData.image (entrySize e) (entrySize e) (Pixels.lanczos img.pix (entrySize e) (entrySize e))

/-- Path/file pair written for entry `e`. -/
def entryPair (img : Raster) (output_dir : String) (e : Entry) : String × FileData :=
  (outPath output_dir e.2, entryFile img e)

/-- The three events a successfully processed entry contributes to the
trace, in source order: resize, then save, then print. -/
def entryEvents (img : Raster) (output_dir : String) (e : Entry) : List Event :=
  [Event.resizedTo img (entrySize e) (entrySize e) (pyResize img (entrySize e) (entrySize e)),
    Event.saved (outPath output_dir e.2) (pyResize img (entrySize e) (entrySize e)),
    Event.printed (createdLine e.2 (entrySize e))]

/-- The spec's section 6 table, transcribed from its own words
(filename and square pixel dimension), to compare against the embedded
source. -/
def specFiles : List (String × ℕ) :=
  [ ("AppIcon-20@2x.png", 40),
    ("AppIcon-20@3x.png", 60),
    ("AppIcon-29@2x.png", 58),
    ("AppIcon-29@3x.png", 87),
    ("AppIcon-40@2x.png", 80),
    ("AppIcon-40@3x.png", 120),
    ("AppIcon-60@2x.png", 120),
    ("AppIcon-60@3x.png", 180),
    ("AppIcon-76.png", 76),
    ("AppIcon-76@2x.png", 152),
    ("AppIcon-83.5@2x.png", 167),
    ("AppIcon-1024.png", 1024) ]

theorem outPath_injective (dir : String) : Function.Injective (outPath dir) := by
  intro f g h
  have h2 : (dir ++ "/").data ++ f.data = (dir ++ "/").data ++ g.data := by
    have := congrArg String.data h
    simpa [outPath, String.data_append, List.append_assoc] using this
  exact String.ext (List.append_cancel_left h2)

theorem lookupFile_append_right (l fs : List (String × FileData)) (p : String)
    (h : p ∉ l.map Prod.fst) : lookupFile (l ++ fs) p = lookupFile fs p := by
  induction l with
  | nil => rfl
  | cons x rest ih =>
    cases x with
    | mk q d =>
      rw [List.map_cons] at h
      have hne : p ≠ q := fun hpq => h (List.mem_cons.mpr (Or.inl hpq))
      have hrest : p ∉ rest.map Prod.fst := fun hm => h (List.mem_cons.mpr (Or.inr hm))
      simp only [List.cons_append, lookupFile, if_neg hne]
      exact ih hrest

theorem lookupFile_append_left (l fs : List (String × FileData)) (p : String) (d : FileData)
    (hn : (l.map Prod.fst).Nodup) (hm : (p, d) ∈ l) :
    lookupFile (l ++ fs) p = some d := by
  induction l with
  | nil => cases hm
  | cons x rest ih =>
    cases x with
    | mk q c =>
      rw [List.map_cons] at hn
      obtain ⟨hq, hn'⟩ := List.nodup_cons.mp hn
      rcases List.mem_cons.mp hm with hx | hx
      · cases hx
        simp [lookupFile]
      · have hpq : p ≠ q := by
          intro hpq
          subst hpq
          exact hq (List.mem_map.mpr ⟨(p, d), hx, rfl⟩)
        simp only [List.cons_append, lookupFile, if_neg hpq]
        exact ih hn' hx

theorem lanczos_ne (p : Pixels) : ∀ a b : Nat, Pixels.lanczos p a b ≠ p := by
  induction p with
  | srcData n => intro a b h; cases h
  | lanczos q x y ih =>
    intro a b h
    injection h with h1 h2 h3
    exact ih x y h1

/-- A successful pass over `entries`: if the output directory exists and
every entry's target path is writable, the loop writes every entry's
file (most recent first), leaves directories and writability untouched,
emits the per-entry event triples in table order, and reports no
error. -/
theorem runEntries_success (img : Raster) (dir : String) (entries : List Entry) (w : World)
    (hdir : dir ∈ w.dirs)
    (hw : ∀ e ∈ entries, outPath dir e.2 ∉ w.unwritable) :
    runEntries img dir entries w =
      ⟨⟨(entries.map (entryPair img dir)).reverse ++ w.files, w.dirs, w.unwritable⟩,
        entries.flatMap (entryEvents img dir), none⟩ := by
  induction entries generalizing w with
  | nil => simp [runEntries]
  | cons e rest ih =>
    have hcond : dir ∈ w.dirs ∧ outPath dir e.2 ∉ w.unwritable :=
      ⟨hdir, hw e (List.mem_cons_self e rest)⟩
    have hsave : trySave w dir e.2 (pyResize img (entrySize e) (entrySize e)) =
        some { w with files := entryPair img dir e :: w.files } := by
      simp [trySave, if_pos hcond, pyResize, entryPair, entryFile]
    have hrest : ∀ x ∈ rest, outPath dir x.2 ∉
        ({ w with files := entryPair img dir e :: w.files } : World).unwritable :=
      fun x hx => hw x (List.mem_cons_of_mem e hx)
    simp only [runEntries, hsave]
    rw [ih { w with files := entryPair img dir e :: w.files } hdir hrest]
    simp [entryEvents, List.flatMap_cons]

/-- An aborted pass: the first entry whose target path is unwritable
stops the loop with an `IOError` after its resize; the files of the
entries before it stay written, nothing after it is touched, and only
the earlier entries' events were emitted. -/
theorem runEntries_fail (img : Raster) (dir : String) (pre : List Entry) (e : Entry)
    (post : List Entry) (w : World)
    (hdir : dir ∈ w.dirs)
    (hpre : ∀ x ∈ pre, outPath dir x.2 ∉ w.unwritable)
    (he : outPath dir e.2 ∈ w.unwritable) :
    runEntries img dir (pre ++ e :: post) w =
      ⟨⟨(pre.map (entryPair img dir)).reverse ++ w.files, w.dirs, w.unwritable⟩,
        pre.flatMap (entryEvents img dir) ++
          [Event.resizedTo img (entrySize e) (entrySize e)
            (pyResize img (entrySize e) (entrySize e))],
        some PyError.ioError⟩ := by
  induction pre generalizing w with
  | nil =>
    have hsave : trySave w dir e.2 (pyResize img (entrySize e) (entrySize e)) = none := by
      simp [trySave, he]
    simp [runEntries, hsave]
  | cons x rest ih =>
    have hcond : dir ∈ w.dirs ∧ outPath dir x.2 ∉ w.unwritable :=
      ⟨hdir, hpre x (List.mem_cons_self x rest)⟩
    have hsave : trySave w dir x.2 (pyResize img (entrySize x) (entrySize x)) =
        some { w with files := entryPair img dir x :: w.files } := by
      simp [trySave, if_pos hcond, pyResize, entryPair, entryFile]
    have hrest : ∀ y ∈ rest, outPath dir y.2 ∉
        ({ w with files := entryPair img dir x :: w.files } : World).unwritable :=
      fun y hy => hpre y (List.mem_cons_of_mem x hy)
    simp only [List.cons_append, runEntries, hsave, List.append_eq]
    rw [ih { w with files := entryPair img dir x :: w.files } hdir hrest he]
    simp [entryEvents, List.flatMap_cons]

/-- Frame property of the loop: a path that is not among the entries'
target paths keeps its file content, whatever the outcome; directories
and writability never change. -/
theorem runEntries_frame (img : Raster) (dir : String) (entries : List Entry) (w : World) :
    (∀ p : String, p ∉ entries.map (fun e => outPath dir e.2) →
      lookupFile (runEntries img dir entries w).world.files p = lookupFile w.files p) ∧
    (runEntries img dir entries w).world.dirs = w.dirs ∧
    (runEntries img dir entries w).world.unwritable = w.unwritable := by
  induction entries generalizing w with
  | nil => simp [runEntries]
  | cons e rest ih =>
    by_cases hc : dir ∈ w.dirs ∧ outPath dir e.2 ∉ w.unwritable
    · have hsave : trySave w dir e.2 (pyResize img (entrySize e) (entrySize e)) =
          some { w with files := entryPair img dir e :: w.files } := by
        simp [trySave, if_pos hc, pyResize, entryPair, entryFile]
      simp only [runEntries, hsave]
      refine ⟨?_, (ih _).2.1, (ih _).2.2⟩
      intro p hp
      rw [List.map_cons] at hp
      have hp1 : p ≠ outPath dir e.2 := fun h => hp (List.mem_cons.mpr (Or.inl h))
      have hp2 : p ∉ rest.map (fun e => outPath dir e.2) :=
        fun h => hp (List.mem_cons.mpr (Or.inr h))
      rw [(ih { w with files := entryPair img dir e :: w.files }).1 p hp2]
      simp [lookupFile, entryPair, if_neg hp1]
    · have hsave : trySave w dir e.2 (pyResize img (entrySize e) (entrySize e)) = none := by
        simp only [trySave, if_neg hc]
      simp [runEntries, hsave]

/-- Every event the loop emits is a resize reading exactly the raster
`img` handed to the loop (producing its Lanczos copy), a save, or a
print; in particular the loop never decodes. -/
theorem runEntries_trace_shape (img : Raster) (dir : String) (entries : List Entry)
    (w : World) :
    ∀ ev ∈ (runEntries img dir entries w).trace,
      (∃ s, ev = Event.resizedTo img s s (pyResize img s s)) ∨
        (∃ p r, ev = Event.saved p r) ∨ (∃ l, ev = Event.printed l) := by
  induction entries generalizing w with
  | nil => intro ev hev; simp [runEntries] at hev
  | cons e rest ih =>
    intro ev hev
    by_cases hc : dir ∈ w.dirs ∧ outPath dir e.2 ∉ w.unwritable
    · have hsave : trySave w dir e.2 (pyResize img (entrySize e) (entrySize e)) =
          some { w with files := entryPair img dir e :: w.files } := by
        simp [trySave, if_pos hc, pyResize, entryPair, entryFile]
      simp only [runEntries, hsave, List.mem_cons] at hev
      rcases hev with h | h | h | h
      · exact Or.inl ⟨entrySize e, h⟩
      · exact Or.inr (Or.inl ⟨_, _, h⟩)
      · exact Or.inr (Or.inr ⟨_, h⟩)
      · exact ih _ ev h
    · have hsave : trySave w dir e.2 (pyResize img (entrySize e) (entrySize e)) = none := by
        simp only [trySave, if_neg hc]
      simp only [runEntries, hsave, List.mem_cons, List.not_mem_nil, or_false] at hev
      exact Or.inl ⟨entrySize e, hev⟩

theorem stdoutOf_append (s t : List Event) : stdoutOf (s ++ t) = stdoutOf s ++ stdoutOf t :=
  List.filterMap_append s t _

theorem savesOf_append (s t : List Event) : savesOf (s ++ t) = savesOf s ++ savesOf t :=
  List.filterMap_append s t _

theorem stdoutOf_flatMap (img : Raster) (dir : String) (entries : List Entry) :
    stdoutOf (entries.flatMap (entryEvents img dir)) =
      entries.map fun e => createdLine e.2 (entrySize e) := by
  induction entries with
  | nil => rfl
  | cons e rest ih =>
    rw [List.flatMap_cons, stdoutOf_append, ih]
    rfl

theorem savesOf_flatMap (img : Raster) (dir : String) (entries : List Entry) :
    savesOf (entries.flatMap (entryEvents img dir)) =
      entries.map fun e => (outPath dir e.2, entrySize e, entrySize e) := by
  induction entries with
  | nil => rfl
  | cons e rest ih =>
    rw [List.flatMap_cons, savesOf_append, ih]
    rfl

theorem decodesOf_flatMap (img : Raster) (dir : String) (entries : List Entry) :
    decodesOf (entries.flatMap (entryEvents img dir)) = [] := by
  induction entries with
  | nil => rfl
  | cons e rest ih =>
    rw [List.flatMap_cons]
    show decodesOf (entryEvents img dir e ++ _) = []
    rw [show decodesOf (entryEvents img dir e ++ rest.flatMap (entryEvents img dir)) =
      decodesOf (entryEvents img dir e) ++ decodesOf (rest.flatMap (entryEvents img dir)) from
        List.filterMap_append _ _ _, ih]
    rfl

/-- Keys of the write list are the entries' output paths. -/
theorem keys_entryPair (img : Raster) (dir : String) (entries : List Entry) :
    (entries.map (entryPair img dir)).map Prod.fst =
      (entries.map Prod.snd).map (outPath dir) := by
  simp [entryPair, List.map_map]

/-- After a successful pass, each entry's output path holds its file,
provided the table's filenames are distinct. -/
theorem lookup_after_success (img : Raster) (dir : String) (entries : List Entry)
    (fs : List (String × FileData)) (hnd : (entries.map Prod.snd).Nodup)
    (e : Entry) (he : e ∈ entries) :
    lookupFile ((entries.map (entryPair img dir)).reverse ++ fs) (outPath dir e.2) =
      some (entryFile img e) := by
  apply lookupFile_append_left
  · rw [List.map_reverse, keys_entryPair]
    exact List.nodup_reverse.mpr (hnd.map (outPath_injective dir))
  · exact List.mem_reverse.mpr (List.mem_map.mpr ⟨e, he, rfl⟩)

/-- A path that is not among the entries' output paths is untouched by
the write list. -/
theorem lookup_untouched (img : Raster) (dir : String) (entries : List Entry)
    (fs : List (String × FileData)) (p : String)
    (hp : p ∉ (entries.map Prod.snd).map (outPath dir)) :
    lookupFile ((entries.map (entryPair img dir)).reverse ++ fs) p = lookupFile fs p := by
  apply lookupFile_append_right
  rw [List.map_reverse, keys_entryPair]
  exact fun hm => hp (List.mem_reverse.mp hm)

section

attribute [local semireducible] Rat.ofScientific Rat.mul Rat.inv Rat.add Rat.sub

/-- The Python dict keys `(base_size, scale)` are pairwise distinct, so
building the dict merges nothing and all 12 entries survive in insertion
order. -/
theorem icon_sizes_keys_nodup : (icon_sizes.map Prod.fst).Nodup := by decide

/-- The 12 output filenames are pairwise distinct. -/
theorem icon_sizes_filenames_nodup : (icon_sizes.map Prod.snd).Nodup := by decide

/-- Bridge between the embedded source table and the spec's section 6
table: filename and computed pixel size agree entry by entry. -/
theorem icon_sizes_spec_bridge :
    icon_sizes.map (fun e => (e.2, entrySize e)) = specFiles := by decide

/-- C1: for every valid decodable square input image and existing output
directory, the run succeeds and saves exactly 12 files whose filenames
and square pixel dimensions are exactly the spec's section 6 table, in
order, no entry skipped or deduplicated (both 120x120 entries appear);
afterwards each table entry's path holds its resized file. -/
theorem C1_outputs_match_spec_table (input_path output_dir : String) (w : World)
    (img : Raster)
    (hdec : decodeImage w input_path = some img)
    (_hsq : img.width = img.height)
    (hdir : output_dir ∈ w.dirs)
    (hwr : ∀ e ∈ icon_sizes, outPath output_dir e.2 ∉ w.unwritable) :
    (create_icon_sizes input_path output_dir w).error = none ∧
    savesOf (create_icon_sizes input_path output_dir w).trace =
      specFiles.map (fun fe => (outPath output_dir fe.1, fe.2, fe.2)) ∧
    (savesOf (create_icon_sizes input_path output_dir w).trace).length = 12 ∧
    ∀ e ∈ icon_sizes,
      lookupFile (create_icon_sizes input_path output_dir w).world.files
        (outPath output_dir e.2) = some (entryFile img e) := by
  have hrun := runEntries_success img output_dir icon_sizes w hdir hwr
  have hcr : create_icon_sizes input_path output_dir w =
      ⟨⟨(icon_sizes.map (entryPair img output_dir)).reverse ++ w.files, w.dirs, w.unwritable⟩,
        Event.decoded input_path img :: icon_sizes.flatMap (entryEvents img output_dir),
        none⟩ := by
    simp only [create_icon_sizes, hdec, hrun]
  refine ⟨by rw [hcr], ?_, ?_, ?_⟩
  · rw [hcr]
    show savesOf (Event.decoded input_path img :: _) = _
    rw [show savesOf (Event.decoded input_path img ::
          icon_sizes.flatMap (entryEvents img output_dir)) =
        savesOf (icon_sizes.flatMap (entryEvents img output_dir)) from rfl,
      savesOf_flatMap, ← icon_sizes_spec_bridge, List.map_map]
    rfl
  · rw [hcr]
    rw [show savesOf (Event.decoded input_path img ::
          icon_sizes.flatMap (entryEvents img output_dir)) =
        savesOf (icon_sizes.flatMap (entryEvents img output_dir)) from rfl,
      savesOf_flatMap, List.length_map]
    decide
  · intro e he
    rw [hcr]
    exact lookup_after_success img output_dir icon_sizes w.files icon_sizes_filenames_nodup e he

/-- A concrete world with a square decodable 1024x1024 input image and an
existing, fully writable output directory. -/
def squareInputWorld : World :=
  ⟨[("input.png", FileData.image 1024 1024 (Pixels.srcData 0))], ["out"], []⟩

/-- Witness for C1 at a concrete square input and existing directory. -/
theorem C1_outputs_match_spec_table_witness :
    (decodeImage squareInputWorld "input.png" = some ⟨1024, 1024, Pixels.srcData 0⟩) ∧
    ((⟨1024, 1024, Pixels.srcData 0⟩ : Raster).width =
      (⟨1024, 1024, Pixels.srcData 0⟩ : Raster).height) ∧
    ("out" ∈ squareInputWorld.dirs) ∧
    (∀ e ∈ icon_sizes, outPath "out" e.2 ∉ squareInputWorld.unwritable) ∧
    ((create_icon_sizes "input.png" "out" squareInputWorld).error = none ∧
      savesOf (create_icon_sizes "input.png" "out" squareInputWorld).trace =
        specFiles.map (fun fe => (outPath "out" fe.1, fe.2, fe.2)) ∧
      (savesOf (create_icon_sizes "input.png" "out" squareInputWorld).trace).length = 12 ∧
      ∀ e ∈ icon_sizes,
        lookupFile (create_icon_sizes "input.png" "out" squareInputWorld).world.files
          (outPath "out" e.2) = some (entryFile ⟨1024, 1024, Pixels.srcData 0⟩ e)) :=
  ⟨by decide, rfl, by decide, by decide,
    C1_outputs_match_spec_table "input.png" "out" squareInputWorld
      ⟨1024, 1024, Pixels.srcData 0⟩ (by decide) rfl (by decide) (by decide)⟩

/-- C3: each target edge length is `int(base_size * scale)`, the
truncation toward zero of the exact product; the table computes to the
spec's 12 sizes, and the single fractional entry 83.5 at scale 2 yields
exactly 167. -/
theorem C3_pixel_size_truncation :
    icon_sizes.map entrySize = [40, 60, 58, 87, 80, 120, 120, 180, 76, 152, 167, 1024] ∧
    entrySize ((83.5, 2), "AppIcon-83.5@2x.png") = 167 ∧
    pyInt ((83.5 : ℚ) * ((2 : ℕ) : ℚ)) = 167 ∧
    (∀ q : ℚ, 0 ≤ q → pyInt q = ⌊q⌋) ∧
    (∀ q : ℚ, q < 0 → pyInt q = ⌈q⌉) := by
  refine ⟨by decide, by decide, by decide, fun q hq => ?_, fun q hq => ?_⟩
  · simp [pyInt, hq]
  · simp [pyInt, not_le.mpr hq]

/-- Witness for the conditional truncation conjuncts of C3, at the
concrete rationals 5/2 and -5/2. -/
theorem C3_pixel_size_truncation_witness :
    ((0 : ℚ) ≤ 5 / 2 ∧ pyInt (5 / 2) = ⌊(5 / 2 : ℚ)⌋) ∧
    ((-5 / 2 : ℚ) < 0 ∧ pyInt (-5 / 2) = ⌈(-5 / 2 : ℚ)⌉) :=
  ⟨⟨by decide, C3_pixel_size_truncation.2.2.2.1 (5 / 2) (by decide)⟩,
    ⟨by decide, C3_pixel_size_truncation.2.2.2.2 (-5 / 2) (by decide)⟩⟩

/-- C4: when the input is missing or undecodable the run fails before
the per-entry loop: the filesystem is unchanged, nothing is saved and no
progress line is printed. -/
theorem C4_decode_failure_aborts_run (input_path output_dir : String) (w : World)
    (hdec : decodeImage w input_path = none) :
    create_icon_sizes input_path output_dir w = ⟨w, [], some PyError.decodeError⟩ ∧
    stdoutOf (create_icon_sizes input_path output_dir w).trace = [] ∧
    savesOf (create_icon_sizes input_path output_dir w).trace = [] ∧
    ∀ p, lookupFile (create_icon_sizes input_path output_dir w).world.files p =
      lookupFile w.files p := by
  have hcr : create_icon_sizes input_path output_dir w = ⟨w, [], some PyError.decodeError⟩ := by
    simp [create_icon_sizes, hdec]
  exact ⟨hcr, by rw [hcr]; rfl, by rw [hcr]; rfl, fun p => by rw [hcr]⟩

/-- A world whose input path does not exist. -/
def missingInputWorld : World := ⟨[], ["out"], []⟩

/-- A world whose input file exists but holds undecodable bytes. -/
def rawInputWorld : World := ⟨[("bad.png", FileData.raw 3)], ["out"], []⟩

/-- Witness for C4, for both a missing and an undecodable input. -/
theorem C4_decode_failure_aborts_run_witness :
    (decodeImage missingInputWorld "AppIcon.png" = none ∧
      create_icon_sizes "AppIcon.png" "out" missingInputWorld =
        ⟨missingInputWorld, [], some PyError.decodeError⟩ ∧
      stdoutOf (create_icon_sizes "AppIcon.png" "out" missingInputWorld).trace = [] ∧
      savesOf (create_icon_sizes "AppIcon.png" "out" missingInputWorld).trace = [] ∧
      ∀ p, lookupFile (create_icon_sizes "AppIcon.png" "out" missingInputWorld).world.files p =
        lookupFile missingInputWorld.files p) ∧
    (decodeImage rawInputWorld "bad.png" = none ∧
      create_icon_sizes "bad.png" "out" rawInputWorld =
        ⟨rawInputWorld, [], some PyError.decodeError⟩ ∧
      stdoutOf (create_icon_sizes "bad.png" "out" rawInputWorld).trace = [] ∧
      savesOf (create_icon_sizes "bad.png" "out" rawInputWorld).trace = [] ∧
      ∀ p, lookupFile (create_icon_sizes "bad.png" "out" rawInputWorld).world.files p =
        lookupFile rawInputWorld.files p) :=
  ⟨⟨by decide, C4_decode_failure_aborts_run "AppIcon.png" "out" missingInputWorld (by decide)⟩,
    ⟨by decide, C4_decode_failure_aborts_run "bad.png" "out" rawInputWorld (by decide)⟩⟩

/-- C7: the entries are processed strictly in table order; each entry
contributes one resize, one save and then exactly one progress line, so
the printed lines match the table order and the printed sizes are the
computed pixel sizes. -/
theorem C7_progress_lines_in_table_order (input_path output_dir : String) (w : World)
    (img : Raster)
    (hdec : decodeImage w input_path = some img)
    (hdir : output_dir ∈ w.dirs)
    (hwr : ∀ e ∈ icon_sizes, outPath output_dir e.2 ∉ w.unwritable) :
    (create_icon_sizes input_path output_dir w).trace =
      Event.decoded input_path img :: icon_sizes.flatMap (entryEvents img output_dir) ∧
    stdoutOf (create_icon_sizes input_path output_dir w).trace =
      icon_sizes.map (fun e => createdLine e.2 (entrySize e)) ∧
    stdoutOf (create_icon_sizes input_path output_dir w).trace =
      ["Created AppIcon-20@2x.png (40x40)",
        "Created AppIcon-20@3x.png (60x60)",
        "Created AppIcon-29@2x.png (58x58)",
        "Created AppIcon-29@3x.png (87x87)",
        "Created AppIcon-40@2x.png (80x80)",
        "Created AppIcon-40@3x.png (120x120)",
        "Created AppIcon-60@2x.png (120x120)",
        "Created AppIcon-60@3x.png (180x180)",
        "Created AppIcon-76.png (76x76)",
        "Created AppIcon-76@2x.png (152x152)",
        "Created AppIcon-83.5@2x.png (167x167)",
        "Created AppIcon-1024.png (1024x1024)"] := by
  have hrun := runEntries_success img output_dir icon_sizes w hdir hwr
  have hcr : create_icon_sizes input_path output_dir w =
      ⟨⟨(icon_sizes.map (entryPair img output_dir)).reverse ++ w.files, w.dirs, w.unwritable⟩,
        Event.decoded input_path img :: icon_sizes.flatMap (entryEvents img output_dir),
        none⟩ := by
    simp only [create_icon_sizes, hdec, hrun]
  have hstd : stdoutOf (create_icon_sizes input_path output_dir w).trace =
      icon_sizes.map (fun e => createdLine e.2 (entrySize e)) := by
    rw [hcr]
    rw [show stdoutOf (Event.decoded input_path img ::
          icon_sizes.flatMap (entryEvents img output_dir)) =
        stdoutOf (icon_sizes.flatMap (entryEvents img output_dir)) from rfl,
      stdoutOf_flatMap]
  refine ⟨by rw [hcr], hstd, ?_⟩
  rw [hstd]
  decide

/-- Witness for C7 at a concrete world. -/
theorem C7_progress_lines_in_table_order_witness :
    (decodeImage squareInputWorld "input.png" = some ⟨1024, 1024, Pixels.srcData 0⟩) ∧
    ("out" ∈ squareInputWorld.dirs) ∧
    (∀ e ∈ icon_sizes, outPath "out" e.2 ∉ squareInputWorld.unwritable) ∧
    ((create_icon_sizes "input.png" "out" squareInputWorld).trace =
      Event.decoded "input.png" ⟨1024, 1024, Pixels.srcData 0⟩ ::
        icon_sizes.flatMap (entryEvents ⟨1024, 1024, Pixels.srcData 0⟩ "out") ∧
    stdoutOf (create_icon_sizes "input.png" "out" squareInputWorld).trace =
      icon_sizes.map (fun e => createdLine e.2 (entrySize e)) ∧
    stdoutOf (create_icon_sizes "input.png" "out" squareInputWorld).trace =
      ["Created AppIcon-20@2x.png (40x40)",
        "Created AppIcon-20@3x.png (60x60)",
        "Created AppIcon-29@2x.png (58x58)",
        "Created AppIcon-29@3x.png (87x87)",
        "Created AppIcon-40@2x.png (80x80)",
        "Created AppIcon-40@3x.png (120x120)",
        "Created AppIcon-60@2x.png (120x120)",
        "Created AppIcon-60@3x.png (180x180)",
        "Created AppIcon-76.png (76x76)",
        "Created AppIcon-76@2x.png (152x152)",
        "Created AppIcon-83.5@2x.png (167x167)",
        "Created AppIcon-1024.png (1024x1024)"]) :=
  ⟨by decide, by decide, by decide,
    C7_progress_lines_in_table_order "input.png" "out" squareInputWorld
      ⟨1024, 1024, Pixels.srcData 0⟩ (by decide) (by decide) (by decide)⟩

/-- C9: for a decodable input of any dimensions (no squareness check
anywhere), the run still succeeds and every output is exactly
`pixel_size x pixel_size` square; the input's aspect ratio is not
preserved and never validated. -/
theorem C9_outputs_square_for_any_input (input_path output_dir : String) (w : World)
    (img : Raster)
    (hdec : decodeImage w input_path = some img)
    (hdir : output_dir ∈ w.dirs)
    (hwr : ∀ e ∈ icon_sizes, outPath output_dir e.2 ∉ w.unwritable) :
    (create_icon_sizes input_path output_dir w).error = none ∧
    (∀ e ∈ icon_sizes,
      lookupFile (create_icon_sizes input_path output_dir w).world.files
        (outPath output_dir e.2) =
          some (FileData.image (entrySize e) (entrySize e)
            (Pixels.lanczos img.pix (entrySize e) (entrySize e)))) ∧
    (∀ p r, Event.saved p r ∈ (create_icon_sizes input_path output_dir w).trace →
      r.width = r.height) := by
  have hrun := runEntries_success img output_dir icon_sizes w hdir hwr
  have hcr : create_icon_sizes input_path output_dir w =
      ⟨⟨(icon_sizes.map (entryPair img output_dir)).reverse ++ w.files, w.dirs, w.unwritable⟩,
        Event.decoded input_path img :: icon_sizes.flatMap (entryEvents img output_dir),
        none⟩ := by
    simp only [create_icon_sizes, hdec, hrun]
  refine ⟨by rw [hcr], ?_, ?_⟩
  · intro e he
    rw [hcr]
    exact lookup_after_success img output_dir icon_sizes w.files icon_sizes_filenames_nodup e he
  · intro p r hm
    rw [hcr] at hm
    rcases List.mem_cons.mp hm with h | h
    · cases h
    · rcases List.mem_flatMap.mp h with ⟨e, he, hev⟩
      simp only [entryEvents, List.mem_cons, List.not_mem_nil, or_false] at hev
      rcases hev with h1 | h1 | h1
      · cases h1
      · injection h1 with hp hr
        subst hr
        rfl
      · cases h1

/-- A world holding a wide, non-square decodable input image. -/
def wideInputWorld : World :=
  ⟨[("wide.png", FileData.image 640 480 (Pixels.srcData 7))], ["out"], []⟩

/-- Witness for C9 at a concrete 640x480 (non-square) input. -/
theorem C9_outputs_square_for_any_input_witness :
    (decodeImage wideInputWorld "wide.png" = some ⟨640, 480, Pixels.srcData 7⟩) ∧
    ("out" ∈ wideInputWorld.dirs) ∧
    (∀ e ∈ icon_sizes, outPath "out" e.2 ∉ wideInputWorld.unwritable) ∧
    ((create_icon_sizes "wide.png" "out" wideInputWorld).error = none ∧
    (∀ e ∈ icon_sizes,
      lookupFile (create_icon_sizes "wide.png" "out" wideInputWorld).world.files
        (outPath "out" e.2) =
          some (FileData.image (entrySize e) (entrySize e)
            (Pixels.lanczos (Pixels.srcData 7) (entrySize e) (entrySize e)))) ∧
    (∀ p r, Event.saved p r ∈ (create_icon_sizes "wide.png" "out" wideInputWorld).trace →
      r.width = r.height)) :=
  ⟨by decide, by decide, by decide,
    C9_outputs_square_for_any_input "wide.png" "out" wideInputWorld
      ⟨640, 480, Pixels.srcData 7⟩ (by decide) (by decide) (by decide)⟩

/-- Every save the loop performs targets one of the entries' output
paths. -/
theorem runEntries_saved_paths (img : Raster) (dir : String) (entries : List Entry)
    (w : World) :
    ∀ p r, Event.saved p r ∈ (runEntries img dir entries w).trace →
      p ∈ entries.map fun e => outPath dir e.2 := by
  induction entries generalizing w with
  | nil => intro p r h; simp [runEntries] at h
  | cons e rest ih =>
    intro p r h
    by_cases hc : dir ∈ w.dirs ∧ outPath dir e.2 ∉ w.unwritable
    · have hsave : trySave w dir e.2 (pyResize img (entrySize e) (entrySize e)) =
          some { w with files := entryPair img dir e :: w.files } := by
        simp [trySave, if_pos hc, pyResize, entryPair, entryFile]
      simp only [runEntries, hsave, List.mem_cons] at h
      rw [List.map_cons]
      rcases h with h | h | h | h
      · cases h
      · injection h with hp hr
        exact List.mem_cons.mpr (Or.inl hp)
      · cases h
      · exact List.mem_cons.mpr (Or.inr (ih _ p r h))
    · have hsave : trySave w dir e.2 (pyResize img (entrySize e) (entrySize e)) = none := by
        simp only [trySave, if_neg hc]
      simp only [runEntries, hsave, List.mem_cons, List.not_mem_nil, or_false] at h
      cases h

/-- C10: a run writes only to the 12 table paths inside the output
directory: every save targets one of them, and any other path keeps its
file content; directories and writability are never changed. -/
theorem C10_frame_only_table_paths (input_path output_dir : String) (w : World) (p : String)
    (hp : p ∉ icon_sizes.map fun e => outPath output_dir e.2) :
    lookupFile (create_icon_sizes input_path output_dir w).world.files p =
      lookupFile w.files p ∧
    (create_icon_sizes input_path output_dir w).world.dirs = w.dirs ∧
    (create_icon_sizes input_path output_dir w).world.unwritable = w.unwritable ∧
    (∀ q r, Event.saved q r ∈ (create_icon_sizes input_path output_dir w).trace →
      q ∈ icon_sizes.map fun e => outPath output_dir e.2) := by
  rcases hdec : decodeImage w input_path with _ | img
  · have hcr : create_icon_sizes input_path output_dir w =
        ⟨w, [], some PyError.decodeError⟩ := by
      simp [create_icon_sizes, hdec]
    rw [hcr]
    exact ⟨rfl, rfl, rfl, fun q r h => absurd h (List.not_mem_nil _)⟩
  · have hf := runEntries_frame img output_dir icon_sizes w
    have hcrw : (create_icon_sizes input_path output_dir w).world =
        (runEntries img output_dir icon_sizes w).world := by
      simp only [create_icon_sizes, hdec]
    have hcrt : (create_icon_sizes input_path output_dir w).trace =
        Event.decoded input_path img :: (runEntries img output_dir icon_sizes w).trace := by
      simp only [create_icon_sizes, hdec]
    refine ⟨by rw [hcrw]; exact hf.1 p hp, by rw [hcrw]; exact hf.2.1,
      by rw [hcrw]; exact hf.2.2, ?_⟩
    intro q r h
    rw [hcrt] at h
    rcases List.mem_cons.mp h with h1 | h1
    · cases h1
    · exact runEntries_saved_paths img output_dir icon_sizes w q r h1

/-- Witness for C10: a pre-existing unrelated file in the output
directory and a file outside it are untouched. -/
theorem C10_frame_only_table_paths_witness :
    ("out/other.txt" ∉ icon_sizes.map fun e => outPath "out" e.2) ∧
    (lookupFile (create_icon_sizes "input.png" "out" squareInputWorld).world.files
        "out/other.txt" = lookupFile squareInputWorld.files "out/other.txt" ∧
      (create_icon_sizes "input.png" "out" squareInputWorld).world.dirs =
        squareInputWorld.dirs ∧
      (create_icon_sizes "input.png" "out" squareInputWorld).world.unwritable =
        squareInputWorld.unwritable ∧
      (∀ q r,
        Event.saved q r ∈ (create_icon_sizes "input.png" "out" squareInputWorld).trace →
          q ∈ icon_sizes.map fun e => outPath "out" e.2)) :=
  ⟨by decide,
    C10_frame_only_table_paths "input.png" "out" squareInputWorld "out/other.txt" (by decide)⟩

/-- C5: if the write of some entry fails, the run aborts there with an
`IOError`: only the earlier entries were announced, their files stay in
place, and no later entry's file is created. -/
theorem C5_write_failure_aborts_keeping_partial_output (input_path output_dir : String)
    (w : World) (img : Raster) (pre : List Entry) (e : Entry) (post : List Entry)
    (hsplit : icon_sizes = pre ++ e :: post)
    (hdec : decodeImage w input_path = some img)
    (hdir : output_dir ∈ w.dirs)
    (hpre : ∀ x ∈ pre, outPath output_dir x.2 ∉ w.unwritable)
    (he : outPath output_dir e.2 ∈ w.unwritable) :
    (create_icon_sizes input_path output_dir w).error = some PyError.ioError ∧
    stdoutOf (create_icon_sizes input_path output_dir w).trace =
      pre.map (fun x => createdLine x.2 (entrySize x)) ∧
    (∀ x ∈ pre,
      lookupFile (create_icon_sizes input_path output_dir w).world.files
        (outPath output_dir x.2) = some (entryFile img x)) ∧
    ∀ x ∈ e :: post,
      lookupFile w.files (outPath output_dir x.2) = none →
        lookupFile (create_icon_sizes input_path output_dir w).world.files
          (outPath output_dir x.2) = none := by
  have hrun := runEntries_fail img output_dir pre e post w hdir hpre he
  have hnd : ((pre ++ e :: post).map Prod.snd).Nodup := by
    rw [← hsplit]
    exact icon_sizes_filenames_nodup
  rw [List.map_append] at hnd
  obtain ⟨hndpre, hndpost, hdisj⟩ := List.nodup_append.mp hnd
  have hcr : create_icon_sizes input_path output_dir w =
      ⟨⟨(pre.map (entryPair img output_dir)).reverse ++ w.files, w.dirs, w.unwritable⟩,
        Event.decoded input_path img ::
          (pre.flatMap (entryEvents img output_dir) ++
            [Event.resizedTo img (entrySize e) (entrySize e)
              (pyResize img (entrySize e) (entrySize e))]),
        some PyError.ioError⟩ := by
    simp only [create_icon_sizes, hdec, hsplit, hrun]
  refine ⟨by rw [hcr], ?_, ?_, ?_⟩
  · rw [hcr]
    rw [show stdoutOf (Event.decoded input_path img ::
          (pre.flatMap (entryEvents img output_dir) ++
            [Event.resizedTo img (entrySize e) (entrySize e)
              (pyResize img (entrySize e) (entrySize e))])) =
        stdoutOf (pre.flatMap (entryEvents img output_dir) ++
          [Event.resizedTo img (entrySize e) (entrySize e)
            (pyResize img (entrySize e) (entrySize e))]) from rfl,
      stdoutOf_append, stdoutOf_flatMap]
    simp [stdoutOf]
  · intro x hx
    rw [hcr]
    exact lookup_after_success img output_dir pre w.files hndpre x hx
  · intro x hx hnone
    rw [hcr]
    have hp' : outPath output_dir x.2 ∉ (pre.map Prod.snd).map (outPath output_dir) := by
      intro hmem
      rcases List.mem_map.mp hmem with ⟨f, hf, hfe⟩
      have hfx : f = x.2 := outPath_injective output_dir hfe
      subst hfx
      exact hdisj hf (List.mem_map.mpr ⟨x, hx, rfl⟩)
    rw [lookup_untouched img output_dir pre w.files (outPath output_dir x.2) hp']
    exact hnone

/-- The first two table entries, for the C5 witness split. -/
def preEntries : List Entry :=
  [((20, 2), "AppIcon-20@2x.png"), ((20, 3), "AppIcon-20@3x.png")]

/-- The third table entry, whose write fails in the C5 witness. -/
def failEntry : Entry := ((29, 2), "AppIcon-29@2x.png")

/-- The last nine table entries, for the C5 witness split. -/
def postEntries : List Entry :=
  [ ((29, 3), "AppIcon-29@3x.png"),
    ((40, 2), "AppIcon-40@2x.png"),
    ((40, 3), "AppIcon-40@3x.png"),
    ((60, 2), "AppIcon-60@2x.png"),
    ((60, 3), "AppIcon-60@3x.png"),
    ((76, 1), "AppIcon-76.png"),
    ((76, 2), "AppIcon-76@2x.png"),
    ((83.5, 2), "AppIcon-83.5@2x.png"),
    ((1024, 1), "AppIcon-1024.png") ]

/-- A world where the third entry's target path is unwritable. -/
def failWorld : World :=
  ⟨[("input.png", FileData.image 512 512 (Pixels.srcData 1))], ["out"],
    [outPath "out" "AppIcon-29@2x.png"]⟩

/-- Witness for C5: the write of the third entry fails; the first two
files stay, the rest never appear. -/
theorem C5_write_failure_aborts_keeping_partial_output_witness :
    (icon_sizes = preEntries ++ failEntry :: postEntries) ∧
    (decodeImage failWorld "input.png" = some ⟨512, 512, Pixels.srcData 1⟩) ∧
    ("out" ∈ failWorld.dirs) ∧
    (∀ x ∈ preEntries, outPath "out" x.2 ∉ failWorld.unwritable) ∧
    (outPath "out" failEntry.2 ∈ failWorld.unwritable) ∧
    ((create_icon_sizes "input.png" "out" failWorld).error = some PyError.ioError ∧
    stdoutOf (create_icon_sizes "input.png" "out" failWorld).trace =
      preEntries.map (fun x => createdLine x.2 (entrySize x)) ∧
    (∀ x ∈ preEntries,
      lookupFile (create_icon_sizes "input.png" "out" failWorld).world.files
        (outPath "out" x.2) = some (entryFile ⟨512, 512, Pixels.srcData 1⟩ x)) ∧
    ∀ x ∈ failEntry :: postEntries,
      lookupFile failWorld.files (outPath "out" x.2) = none →
        lookupFile (create_icon_sizes "input.png" "out" failWorld).world.files
          (outPath "out" x.2) = none) :=
  ⟨by decide, by decide, by decide, by decide, by decide,
    C5_write_failure_aborts_keeping_partial_output "input.png" "out" failWorld
      ⟨512, 512, Pixels.srcData 1⟩ preEntries failEntry postEntries
      (by decide) (by decide) (by decide) (by decide) (by decide)⟩

theorem decodeImage_congr (fs1 : List (String × FileData)) (d1 u1 : List String)
    (fs2 : List (String × FileData)) (d2 u2 : List String) (p : String)
    (h : lookupFile fs1 p = lookupFile fs2 p) :
    decodeImage ⟨fs1, d1, u1⟩ p = decodeImage ⟨fs2, d2, u2⟩ p := by
  simp only [decodeImage, h]

/-- C6: running the generator twice on the same input and directory is
idempotent at the file-set level: both runs succeed, print the same
lines, the second silently overwrites the first's files, and every table
path holds the same resized file after either run. -/
theorem C6_second_run_idempotent (input_path output_dir : String) (w : World) (img : Raster)
    (hdec : decodeImage w input_path = some img)
    (hdir : output_dir ∈ w.dirs)
    (hwr : ∀ e ∈ icon_sizes, outPath output_dir e.2 ∉ w.unwritable)
    (hin : input_path ∉ (icon_sizes.map Prod.snd).map (outPath output_dir)) :
    (create_icon_sizes input_path output_dir w).error = none ∧
    (create_icon_sizes input_path output_dir
      (create_icon_sizes input_path output_dir w).world).error = none ∧
    stdoutOf (create_icon_sizes input_path output_dir
      (create_icon_sizes input_path output_dir w).world).trace =
      stdoutOf (create_icon_sizes input_path output_dir w).trace ∧
    ∀ e ∈ icon_sizes,
      lookupFile (create_icon_sizes input_path output_dir
          (create_icon_sizes input_path output_dir w).world).world.files
        (outPath output_dir e.2) =
      lookupFile (create_icon_sizes input_path output_dir w).world.files
        (outPath output_dir e.2) ∧
      lookupFile (create_icon_sizes input_path output_dir w).world.files
        (outPath output_dir e.2) = some (entryFile img e) := by
  have hrun1 := runEntries_success img output_dir icon_sizes w hdir hwr
  have hcr1 : create_icon_sizes input_path output_dir w =
      ⟨⟨(icon_sizes.map (entryPair img output_dir)).reverse ++ w.files, w.dirs, w.unwritable⟩,
        Event.decoded input_path img :: icon_sizes.flatMap (entryEvents img output_dir),
        none⟩ := by
    simp only [create_icon_sizes, hdec, hrun1]
  have hdec2 : decodeImage
      ⟨(icon_sizes.map (entryPair img output_dir)).reverse ++ w.files, w.dirs, w.unwritable⟩
      input_path = some img :=
    (decodeImage_congr _ w.dirs w.unwritable w.files w.dirs w.unwritable input_path
      (lookup_untouched img output_dir icon_sizes w.files input_path hin)).trans hdec
  have hrun2 := runEntries_success img output_dir icon_sizes
    ⟨(icon_sizes.map (entryPair img output_dir)).reverse ++ w.files, w.dirs, w.unwritable⟩
    hdir hwr
  have hcr2 : create_icon_sizes input_path output_dir
      ⟨(icon_sizes.map (entryPair img output_dir)).reverse ++ w.files, w.dirs, w.unwritable⟩ =
      ⟨⟨(icon_sizes.map (entryPair img output_dir)).reverse ++
          ((icon_sizes.map (entryPair img output_dir)).reverse ++ w.files),
        w.dirs, w.unwritable⟩,
        Event.decoded input_path img :: icon_sizes.flatMap (entryEvents img output_dir),
        none⟩ := by
    simp only [create_icon_sizes, hdec2, hrun2]
  refine ⟨by rw [hcr1], ?_, ?_, ?_⟩
  · simp only [hcr1]
    rw [hcr2]
  · simp only [hcr1]
    rw [hcr2]
  · intro e he
    constructor
    · simp only [hcr1]
      rw [hcr2]
      rw [lookup_after_success img output_dir icon_sizes
          ((icon_sizes.map (entryPair img output_dir)).reverse ++ w.files)
          icon_sizes_filenames_nodup e he,
        lookup_after_success img output_dir icon_sizes w.files
          icon_sizes_filenames_nodup e he]
    · simp only [hcr1]
      exact lookup_after_success img output_dir icon_sizes w.files
        icon_sizes_filenames_nodup e he

/-- Witness for C6 at a concrete world run twice. -/
theorem C6_second_run_idempotent_witness :
    (decodeImage squareInputWorld "input.png" = some ⟨1024, 1024, Pixels.srcData 0⟩) ∧
    ("out" ∈ squareInputWorld.dirs) ∧
    (∀ e ∈ icon_sizes, outPath "out" e.2 ∉ squareInputWorld.unwritable) ∧
    ("input.png" ∉ (icon_sizes.map Prod.snd).map (outPath "out")) ∧
    ((create_icon_sizes "input.png" "out" squareInputWorld).error = none ∧
    (create_icon_sizes "input.png" "out"
      (create_icon_sizes "input.png" "out" squareInputWorld).world).error = none ∧
    stdoutOf (create_icon_sizes "input.png" "out"
      (create_icon_sizes "input.png" "out" squareInputWorld).world).trace =
      stdoutOf (create_icon_sizes "input.png" "out" squareInputWorld).trace ∧
    ∀ e ∈ icon_sizes,
      lookupFile (create_icon_sizes "input.png" "out"
          (create_icon_sizes "input.png" "out" squareInputWorld).world).world.files
        (outPath "out" e.2) =
      lookupFile (create_icon_sizes "input.png" "out" squareInputWorld).world.files
        (outPath "out" e.2) ∧
      lookupFile (create_icon_sizes "input.png" "out" squareInputWorld).world.files
        (outPath "out" e.2) = some (entryFile ⟨1024, 1024, Pixels.srcData 0⟩ e)) :=
  ⟨by decide, by decide, by decide, by decide,
    C6_second_run_idempotent "input.png" "out" squareInputWorld
      ⟨1024, 1024, Pixels.srcData 0⟩ (by decide) (by decide) (by decide) (by decide)⟩

/-- The loop itself never decodes anything. -/
theorem decodesOf_runEntries (img : Raster) (dir : String) (entries : List Entry)
    (w : World) : decodesOf (runEntries img dir entries w).trace = [] := by
  simp only [decodesOf]
  rw [List.filterMap_eq_nil_iff]
  intro ev hev
  rcases runEntries_trace_shape img dir entries w ev hev with ⟨s, h⟩ | ⟨p, r, h⟩ | ⟨l, h⟩ <;>
    subst h <;> rfl

/-- C8: with a decodable input, a run decodes the source exactly once;
every resize reads exactly that decoded raster, unchanged, and returns a
fresh raster distinct from it. -/
theorem C8_single_decode_immutable_source (input_path output_dir : String) (w : World)
    (img : Raster)
    (hdec : decodeImage w input_path = some img) :
    decodesOf (create_icon_sizes input_path output_dir w).trace = [(input_path, img)] ∧
    ∀ src a b r,
      Event.resizedTo src a b r ∈ (create_icon_sizes input_path output_dir w).trace →
        src = img ∧ r = pyResize img a b ∧ r ≠ img := by
  have hcrt : (create_icon_sizes input_path output_dir w).trace =
      Event.decoded input_path img :: (runEntries img output_dir icon_sizes w).trace := by
    simp only [create_icon_sizes, hdec]
  constructor
  · rw [hcrt]
    rw [show decodesOf (Event.decoded input_path img ::
          (runEntries img output_dir icon_sizes w).trace) =
        (input_path, img) :: decodesOf (runEntries img output_dir icon_sizes w).trace from rfl,
      decodesOf_runEntries]
  · intro src a b r hm
    rw [hcrt] at hm
    rcases List.mem_cons.mp hm with h | h
    · cases h
    · rcases runEntries_trace_shape img output_dir icon_sizes w _ h with
        ⟨s, h1⟩ | ⟨p, r2, h1⟩ | ⟨l, h1⟩
      · injection h1 with hsrc ha hb hr
        refine ⟨hsrc, ?_, ?_⟩
        · rw [hr, ha, hb]
        · rw [hr]
          intro hcontra
          exact lanczos_ne img.pix s s (congrArg Raster.pix hcontra)
      · cases h1
      · cases h1

/-- Witness for C8 at a concrete run. -/
theorem C8_single_decode_immutable_source_witness :
    (decodeImage squareInputWorld "input.png" = some ⟨1024, 1024, Pixels.srcData 0⟩) ∧
    (decodesOf (create_icon_sizes "input.png" "out" squareInputWorld).trace =
      [("input.png", ⟨1024, 1024, Pixels.srcData 0⟩)] ∧
    ∀ src a b r,
      Event.resizedTo src a b r ∈
          (create_icon_sizes "input.png" "out" squareInputWorld).trace →
        src = ⟨1024, 1024, Pixels.srcData 0⟩ ∧
          r = pyResize ⟨1024, 1024, Pixels.srcData 0⟩ a b ∧
            r ≠ ⟨1024, 1024, Pixels.srcData 0⟩) :=
  ⟨by decide, C8_single_decode_immutable_source "input.png" "out" squareInputWorld
    ⟨1024, 1024, Pixels.srcData 0⟩ (by decide)⟩

/-- A world with a decodable input but no directories at all: the output
directory `out` does not exist, though nothing prevents creating it. -/
def noDirWorld : World := ⟨[("in.png", FileData.image 8 8 (Pixels.srcData 0))], [], []⟩

/-- Counterexample to C2 as stated: `create_icon_sizes(input_path,
output_dir)` itself never creates the output directory.  Run on a world
where `out` is absent but creatable, it aborts with an `IOError` at the
first write; afterwards the directory still does not exist and none of
the 12 files is present, contradicting the claim that after the
generator runs the directory exists and contains all 12 files. -/
theorem C2_counterexample_no_mkdir_in_generator :
    decodeImage noDirWorld "in.png" = some ⟨8, 8, Pixels.srcData 0⟩ ∧
    "out" ∉ noDirWorld.dirs ∧
    (create_icon_sizes "in.png" "out" noDirWorld).error = some PyError.ioError ∧
    "out" ∉ (create_icon_sizes "in.png" "out" noDirWorld).world.dirs ∧
    (∀ e ∈ icon_sizes,
      lookupFile (create_icon_sizes "in.png" "out" noDirWorld).world.files
        (outPath "out" e.2) = none) ∧
    stdoutOf (create_icon_sizes "in.png" "out" noDirWorld).trace = [] := by
  decide

/-- C2 (amended): directory creation lives in the `__main__` block, not
in `create_icon_sizes`: a script run (`mainRun`) first calls
`os.makedirs(output_dir, exist_ok=True)` and then the generator, so
whenever the script-relative input decodes and the targets are writable,
after the run the output directory exists and contains all 12 files. -/
theorem C2_main_creates_directory (script_dir : String) (w : World) (img : Raster)
    (hdec : decodeImage w (script_dir ++ "/AppIcon.png") = some img)
    (hwr : ∀ e ∈ icon_sizes,
      outPath (script_dir ++ "/Assets.xcassets/AppIcon.appiconset") e.2 ∉ w.unwritable) :
    (mainRun script_dir w).error = none ∧
    script_dir ++ "/Assets.xcassets/AppIcon.appiconset" ∈ (mainRun script_dir w).world.dirs ∧
    ∀ e ∈ icon_sizes,
      lookupFile (mainRun script_dir w).world.files
        (outPath (script_dir ++ "/Assets.xcassets/AppIcon.appiconset") e.2) =
          some (entryFile img e) := by
  have hdir : script_dir ++ "/Assets.xcassets/AppIcon.appiconset" ∈
      (makedirs w (script_dir ++ "/Assets.xcassets/AppIcon.appiconset")).dirs :=
    List.mem_cons_self _ _
  have hdec' : decodeImage (makedirs w (script_dir ++ "/Assets.xcassets/AppIcon.appiconset"))
      (script_dir ++ "/AppIcon.png") = some img := hdec
  have hwr' : ∀ e ∈ icon_sizes,
      outPath (script_dir ++ "/Assets.xcassets/AppIcon.appiconset") e.2 ∉
        (makedirs w (script_dir ++ "/Assets.xcassets/AppIcon.appiconset")).unwritable := hwr
  have hrun := runEntries_success img (script_dir ++ "/Assets.xcassets/AppIcon.appiconset")
    icon_sizes (makedirs w (script_dir ++ "/Assets.xcassets/AppIcon.appiconset")) hdir hwr'
  have hcr : mainRun script_dir w =
      ⟨⟨(icon_sizes.map
            (entryPair img (script_dir ++ "/Assets.xcassets/AppIcon.appiconset"))).reverse ++
          (makedirs w (script_dir ++ "/Assets.xcassets/AppIcon.appiconset")).files,
        (makedirs w (script_dir ++ "/Assets.xcassets/AppIcon.appiconset")).dirs,
        (makedirs w (script_dir ++ "/Assets.xcassets/AppIcon.appiconset")).unwritable⟩,
        Event.decoded (script_dir ++ "/AppIcon.png") img ::
          icon_sizes.flatMap
            (entryEvents img (script_dir ++ "/Assets.xcassets/AppIcon.appiconset")),
        none⟩ := by
    simp only [mainRun, create_icon_sizes, hdec', hrun]
  refine ⟨by rw [hcr], ?_, ?_⟩
  · rw [hcr]
    exact hdir
  · intro e he
    rw [hcr]
    exact lookup_after_success img (script_dir ++ "/Assets.xcassets/AppIcon.appiconset")
      icon_sizes (makedirs w (script_dir ++ "/Assets.xcassets/AppIcon.appiconset")).files
      icon_sizes_filenames_nodup e he

/-- A world for the amended C2: the script-relative input exists, no
directory exists yet. -/
def mainWorld : World := ⟨[("s/AppIcon.png", FileData.image 64 64 (Pixels.srcData 2))], [], []⟩

/-- Witness for the amended C2 at script directory `s`. -/
theorem C2_main_creates_directory_witness :
    (decodeImage mainWorld ("s" ++ "/AppIcon.png") = some ⟨64, 64, Pixels.srcData 2⟩) ∧
    (∀ e ∈ icon_sizes,
      outPath ("s" ++ "/Assets.xcassets/AppIcon.appiconset") e.2 ∉ mainWorld.unwritable) ∧
    ((mainRun "s" mainWorld).error = none ∧
    "s" ++ "/Assets.xcassets/AppIcon.appiconset" ∈ (mainRun "s" mainWorld).world.dirs ∧
    ∀ e ∈ icon_sizes,
      lookupFile (mainRun "s" mainWorld).world.files
        (outPath ("s" ++ "/Assets.xcassets/AppIcon.appiconset") e.2) =
          some (entryFile ⟨64, 64, Pixels.srcData 2⟩ e)) :=
  ⟨by decide, by decide,
    C2_main_creates_directory "s" mainWorld ⟨64, 64, Pixels.srcData 2⟩ (by decide) (by decide)⟩

end

end ProcessIcon
